import Mathlib

/-!
Verification of the APO (Automated Prompt Optimizer) two-stage
meta-prompting pipeline.

Shallow embedding of `util.py` (provider orchestration: `call_llm`,
`_ollama_generate`, `build_meta_instruction`) and `agents.py` (the
workflow `apo_workflow`, `generate_optimized_prompt`,
`execute_optimized_prompt`), together with the empty-task guards of the
two entry points (`cli.py` `main`, `app.py` run-button handler).

Strings are modelled as `List Char`.  Network I/O is modelled by an
abstract transport: each HTTP exchange's outcome (which `except` branch
would fire, or the parsed JSON payload) is an input to the embedded
function, and every provider request and backoff sleep is recorded in an
event trace, so that retry/fallback/ordering claims are statements about
the trace.  Wall-clock time (`time.time()`, `execution_time_seconds`) is
not modelled; no claim depends on it.
-/

set_option maxRecDepth 8192

abbrev Str := List Char

/-- Whitespace stripped by Python `str.strip()` (ASCII part: space, tab,
newline, carriage return, vertical tab `\x0b`, form feed `\x0c`). -/
def isPySpace (c : Char) : Bool :=
  c = ' ' || c = '\t' || c = '\n' || c = '\r' || c = Char.ofNat 11 || c = Char.ofNat 12

/-- Python `str.lstrip()`. -/
def pyStripLeft (s : Str) : Str := s.dropWhile isPySpace

/-- Python `str.rstrip()`. -/
def pyStripRight (s : Str) : Str := (s.reverse.dropWhile isPySpace).reverse

/-- Python `str.strip()`. -/
def pyStrip (s : Str) : Str := pyStripRight (pyStripLeft s)

/-- Python `hay.startswith(needle)`: first argument is the needle. -/
def startsWith : Str → Str → Bool
  | [], _ => true
  | _ :: _, [] => false
  | a :: as, b :: bs => a = b && startsWith as bs

/-- Python `needle in hay` (substring occurrence). -/
def containsSub (needle : Str) : Str → Bool
  | [] => startsWith needle []
  | c :: t => startsWith needle (c :: t) || containsSub needle t

/-- First element of Python `str.splitlines()` on a non-empty string:
the text up to the first line break. -/
def firstLine (s : Str) : Str := s.takeWhile (fun c => !(c = '\n' || c = '\r'))

/-! ## Transport model

`requests.post(...)`, `response.raise_for_status()` and `response.json()`
together either deliver a parsed JSON payload or raise; each constructor
below records which `except` clause of the Python source would catch the
raised exception (the message carried is `str(e)`), or the relevant part
of the payload. -/

/-- Outcome of one Groq exchange inside `call_llm`'s retry loop:
`reqExc` = `requests.exceptions.RequestException` (network error or
non-2xx status), `structExc` = `KeyError`/`IndexError` while digging out
the completion, `otherExc` = any other exception (e.g. an undecodable
body), `okJson content` = parsed body whose
`choices[0].message.content` is `content` (`none` when absent/null). -/
inductive GroqOutcome where
  | reqExc (msg : Str)
  | structExc (msg : Str)
  | otherExc (msg : Str)
  | okJson (content : Option Str)
deriving DecidableEq

/-- Outcome of the single Ollama exchange inside `_ollama_generate`:
`reqExc` = `requests.exceptions.RequestException`, `jsonExc` =
`json.JSONDecodeError` from an undecodable body, `otherExc` = any other
exception (e.g. a non-string `response` field), `okJson respField` =
parsed body whose top-level `response` field is `respField`
(`none` when absent). -/
inductive OllamaOutcome where
  | reqExc (msg : Str)
  | jsonExc
  | otherExc (msg : Str)
  | okJson (respField : Option Str)
deriving DecidableEq

/-- One observable side effect of the orchestrator: a Groq request
(attempt index, prompt, `max_tokens`), a backoff sleep (seconds), or an
Ollama request (prompt). -/
inductive Ev where
  | groqReq (attempt : Nat) (prompt : Str) (maxTokens : Nat)
  | sleep (secs : Nat)
  | ollamaReq (prompt : Str)
deriving DecidableEq

/-- The transport outcomes one `call_llm` invocation would observe:
the Groq outcome of each attempt index, and the Ollama outcome. -/
structure ProviderOutcomes where
  groq : Nat → GroqOutcome
  ollama : OllamaOutcome

/-! ## `_ollama_generate` (util.py lines 32-68) -/

def OLLAMA_EMPTY_MSG : Str :=
  "Error: Ollama server returned an empty response.".toList

def OLLAMA_CONN_PRE : Str :=
  "Error: Failed to connect to Ollama server. Details: ".toList

def OLLAMA_JSON_MSG : Str :=
  "Error: Ollama server returned an invalid response format (not JSON).".toList

def OLLAMA_OTHER_PRE : Str :=
  "Error: An unexpected error occurred in Ollama call: ".toList

def UNKNOWN_REQ_MSG : Str := "Unknown Request Error.".toList

/-- The string `_ollama_generate` returns for a given transport outcome:
`data.get("response", "").strip()` when the body parsed, else the
diagnostic of the `except` clause that caught the exception. -/
def ollamaResult (o : OllamaOutcome) : Str :=
  match o with
  | .okJson f =>
    let content := pyStrip (f.getD [])
    if content ≠ [] then content else OLLAMA_EMPTY_MSG
  | .reqExc e =>
    OLLAMA_CONN_PRE ++ (if e = [] then UNKNOWN_REQ_MSG else firstLine e)
  | .jsonExc => OLLAMA_JSON_MSG
  | .otherExc e => OLLAMA_OTHER_PRE ++ e

/-- `_ollama_generate(prompt)`: one Ollama request; result string plus
the trace of the single request it issues. -/
def _ollama_generate (po : ProviderOutcomes) (prompt : Str) : Str × List Ev :=
  (ollamaResult po.ollama, [Ev.ollamaReq prompt])

/-! ## `call_llm` (util.py lines 71-127) -/

/-- What one iteration of the Groq retry loop yields: `some text` exactly
when the parsed content is truthy (`if content:`), in which case
`content.strip()` is returned; every exception and every falsy content
falls through to the backoff sleep. -/
def groqAttemptResult : GroqOutcome → Option Str
  | .okJson (some c) => if c ≠ [] then some (pyStrip c) else none
  | _ => none

def MAX_RETRIES : Nat := 2

/-- The `for attempt in range(max_retries)` loop of `call_llm`: `attempt`
is the current index, the second argument the remaining iterations.
After every failed attempt the loop sleeps `2 ** attempt` seconds. -/
def groqTry (po : ProviderOutcomes) (prompt : Str) (mt : Nat) :
    Nat → Nat → Option Str × List Ev
  | _, 0 => (none, [])
  | attempt, rem + 1 =>
    match groqAttemptResult (po.groq attempt) with
    | some s => (some s, [Ev.groqReq attempt prompt mt])
    | none =>
      let r := groqTry po prompt mt (attempt + 1) rem
      (r.1, Ev.groqReq attempt prompt mt :: Ev.sleep (2 ^ attempt) :: r.2)

/-- `call_llm(prompt_to_send, is_meta_prompt)`: Groq with retries when a
credential is configured (`hs` = `HIGH_SPEED_MODE`), falling back to a
single Ollama call after the loop; Ollama directly otherwise. -/
def call_llm (hs : Bool) (po : ProviderOutcomes)
    (prompt_to_send : Str) (is_meta_prompt : Bool) : Str × List Ev :=
  let max_tokens := if is_meta_prompt then 500 else 700
  if hs then
    match groqTry po prompt_to_send max_tokens 0 MAX_RETRIES with
    | (some s, evs) => (s, evs)
    | (none, evs) =>
      let r := _ollama_generate po prompt_to_send
      (r.1, evs ++ r.2)
  else
    _ollama_generate po prompt_to_send

/-! ## `build_meta_instruction` (util.py lines 132-164)

The f-string template, split at its two interpolation slots: the rendered
instruction is `metaPre ++ task ++ metaMid ++ ctx ++ "\n"`, then
`.strip()`-ped. -/

/-- Template text from the opening `"""` (which is followed by a newline)
up to the `TASK: ` slot, verbatim from the source. -/
def metaPreString : String :=
  "\nYou are a Universal Optimization Agent.\n"
  ++ "Rewrite the user's request so any AI assistant delivers a result that is simple, clear, and maximally user-friendly.\n"
  ++ "\n"
  ++ "- For any code-related tasks, your optimized prompt MUST require:\n"
  ++ "  - Readable code with docstrings (or header comment) summarizing the overall logic.\n"
  ++ "  - Human-friendly prompt for user input (not raw 'n: ', but e.g. 'Enter N:')\n"
  ++ "  - Basic error handling for bad/edge-case input (e.g. ValueError, negative, empty)\n"
  ++ "  - Output that is easy to read and understand even for non-experts (e.g. 'The square of 7 is: 49')\n"
  ++ "  - Clean, logical variable names, and at least one inline comment explaining the key part.\n"
  ++ "  - (Bonus) Show a sample output for illustration if helpful.\n"
  ++ "\n"
  ++ "- For any non-code/general tasks, ALWAYS demand:\n"
  ++ "  - Clear explanation (as a comment, docstring, or short intro)\n"
  ++ "  - If advice/instructions, steps must be actionable and immediately usable by most people\n"
  ++ "  - Never sacrifice clarity, context, or user understanding just for brevity.\n"
  ++ "\n"
  ++ "**Addition:** Before formatting your answer, always pause to reflect on the user’s actual intent and context:\n"
  ++ "- If code or technical output is specifically warranted or obviously the best fit, provide it as described above.\n"
  ++ "- If the prompt is open-ended, general, or only about advice, respond only in human language—clear, actionable statements, not code or technical logic—unless the user’s intent or context changes.\n"
  ++ "- Use professional judgement, not keyword triggers, to ensure the answer feels natural and goal-oriented for the specific user and their likely scenario.\n"
  ++ "- If unsure, briefly clarify or offer a menu of helpful next actions instead of assuming their intent.\n"
  ++ "\n"
  ++ "All output must be the *optimized prompt only*—no meta, no explanations, just the thing to send to the next assistant, which is concise and precise.\n"
  ++ "\n"
  ++ "TASK: "

def metaPre : Str := metaPreString.toList

/-- Template text between the two slots. -/
def metaMid : Str := "\nCONTEXT: ".toList

/-- `build_meta_instruction(task_description, target_code)`: render the
template with both slots filled, then `.strip()` the whole string. -/
def build_meta_instruction (task_description target_code : Str) : Str :=
  pyStrip (metaPre ++ task_description ++ metaMid ++ target_code ++ ['\n'])

/-! ## Role parsing (agents.py lines 37-39)

`re.search(r"ROLE:? ?([A-Za-z0-9 ,\x5c-]*)", s)` and
`re.sub(r"ROLE:? ?[A-Za-z0-9 ,\x5c-]*\x5cn?", "", s)`.  Both patterns
start with the literal `ROLE`; everything after it is an optional `:`,
an optional space, then a greedy run of the character class, so the
leftmost match begins at the first occurrence of `ROLE` and no
backtracking is ever needed. -/

/-- The character class `[A-Za-z0-9 ,-]` of the role patterns. -/
def roleClassChar (c : Char) : Bool :=
  c.isAlpha || c.isDigit || c = ' ' || c = ',' || c = '-'

/-- Consume one occurrence of `c` if the text begins with it (a greedy
`c?` in a context where no backtracking can occur). -/
def optDrop (c : Char) : Str → Str
  | [] => []
  | a :: r => if a = c then r else a :: r

/-- Capture group 1 of the role pattern, matched against the text that
follows the literal `ROLE`: skip an optional `:`, then an optional
single space, then take the greedy class run. -/
def roleGroup (s : Str) : Str :=
  (optDrop ' ' (optDrop ':' s)).takeWhile roleClassChar

/-- Text remaining after the full `re.sub` match (which additionally
swallows an optional trailing newline), given the text after `ROLE`. -/
def roleMatchRest (s : Str) : Str :=
  optDrop '\n' ((optDrop ' ' (optDrop ':' s)).dropWhile roleClassChar)

/-- `re.search` for the role pattern: group 1 of the leftmost match,
`none` when `ROLE` does not occur. -/
def reSearchRole : Str → Option Str
  | [] => none
  | c :: t =>
    if startsWith ("ROLE".toList) (c :: t) then
      some (roleGroup (List.drop 4 (c :: t)))
    else reSearchRole t

/-- `re.sub` for the role pattern with replacement `""`: delete every
non-overlapping leftmost match, scanning left to right. -/
def reSubRole (s : Str) : Str :=
  match s with
  | [] => []
  | c :: t =>
    if startsWith ("ROLE".toList) (c :: t) then
      reSubRole (roleMatchRest (List.drop 4 (c :: t)))
    else c :: reSubRole t
termination_by s.length
decreasing_by
  · have hod : ∀ (c' : Char) (u : Str), (optDrop c' u).length ≤ u.length := by
      intro c' u
      cases u with
      | nil => simp [optDrop]
      | cons a r =>
        by_cases h : a = c'
        · simp [optDrop, h]
        · simp [optDrop, h]
    have h1 : (roleMatchRest (List.drop 4 (c :: t))).length ≤
        (List.drop 4 (c :: t)).length := by
      unfold roleMatchRest
      calc (optDrop '\n' (((optDrop ' ' (optDrop ':' (List.drop 4 (c :: t))))).dropWhile
              roleClassChar)).length
          ≤ ((optDrop ' ' (optDrop ':' (List.drop 4 (c :: t)))).dropWhile
              roleClassChar).length := hod _ _
        _ ≤ (optDrop ' ' (optDrop ':' (List.drop 4 (c :: t)))).length :=
              (List.dropWhile_sublist _).length_le
        _ ≤ (optDrop ':' (List.drop 4 (c :: t))).length := hod _ _
        _ ≤ (List.drop 4 (c :: t)).length := hod _ _
    have h2 : (List.drop 4 (c :: t)).length = t.length - 3 := by simp
    simp only [List.length_cons]
    omega
  · simp

/-- `chosen_role` of agents.py line 38. -/
def chosenRole (s : Str) : Str :=
  match reSearchRole s with
  | some g => pyStrip g
  | none => "N/A".toList

/-- `cleaned_prompt` of agents.py line 39. -/
def cleanedPrompt (s : Str) : Str := pyStrip (reSubRole s)

/-! ## Fenced-block parsing (agents.py lines 49-56)

`re.search(r"```(.*?)\x5cn(.*?)```", s, re.DOTALL)`.  The match begins at
the leftmost position carrying three backticks from which the rest of the
pattern can still be completed; group 1 is lazy, so it ends at the first
newline after which a closing triple backtick still occurs, and group 2
is lazy, so it ends at the first triple backtick after that newline. -/

def tripleBT : Str := "```".toList

/-- Split at the first newline: `some (before, after)` with
`s = before ++ '\n' :: after`, `none` when `s` has no newline. -/
def splitAtNl : Str → Option (Str × Str)
  | [] => none
  | c :: t =>
    if c = '\n' then some ([], t)
    else
      match splitAtNl t with
      | some (a, b) => some (c :: a, b)
      | none => none

/-- Split at the first triple backtick: `some (before, after)` with
`s = before ++ "```" ++ after`, `none` when none occurs. -/
def splitAtTriple : Str → Option (Str × Str)
  | [] => none
  | c :: t =>
    if startsWith tripleBT (c :: t) then some ([], List.drop 3 (c :: t))
    else
      match splitAtTriple t with
      | some (a, b) => some (c :: a, b)
      | none => none

/-- Attempt to complete the fence pattern from the text following an
opening triple backtick: group 1 runs to the first newline, group 2 to
the next triple backtick.  (If no closing fence follows the first
newline, none follows a later newline either, so the lazy group 1 cannot
be extended into a match and the attempt fails.) -/
def tryFence (after : Str) : Option (Str × Str) :=
  match splitAtNl after with
  | none => none
  | some (g1, rest) =>
    match splitAtTriple rest with
    | none => none
    | some (g2, _) => some (g1, g2)

/-- `re.search` for the fence pattern: `(group 1, group 2)` of the
leftmost match. -/
def reSearchFence : Str → Option (Str × Str)
  | [] => none
  | c :: t =>
    if startsWith tripleBT (c :: t) then
      match tryFence (List.drop 3 (c :: t)) with
      | some r => some r
      | none => reSearchFence t
    else reSearchFence t

/-- Step 6 of `apo_workflow`: `(final_output, output_type)` from the
second-stage output text. -/
def extractFinal (s : Str) : Str × Str :=
  match reSearchFence s with
  | some g => (pyStrip g.2, "code".toList)
  | none => (pyStrip s, "text".toList)

/-- The region step 6 selects before trimming: `code_match.group(2)`
when the fence pattern matched, else the entire second-stage output
(the scrutinee of `extractFinal`, before `.strip()`). -/
def selectedRegion (s : Str) : Str :=
  match reSearchFence s with
  | some g => g.2
  | none => s

/-! ## The workflow (agents.py) -/

/-- The failure marker `apo_workflow` tests with `str.startswith`. -/
def errMarker : Str := "Error:".toList

/-- Provider outcomes for the two sequential `call_llm` invocations of
one workflow run, plus the process-wide `HIGH_SPEED_MODE` flag. -/
structure WorkflowEnv where
  hs : Bool
  s1 : ProviderOutcomes
  s2 : ProviderOutcomes

/-- The result record of `apo_workflow` (its
`execution_time_seconds` field is wall-clock time and is not
modelled). -/
structure WorkflowResult where
  user_task : Str
  role_selected : Str
  optimized_prompt : Str
  final_output : Str
  output_type : Str
deriving DecidableEq

/-- `generate_optimized_prompt(abstract_task, target_code)`: build the
meta instruction and make the first (meta) call. -/
def generate_optimized_prompt (hs : Bool) (po : ProviderOutcomes)
    (abstract_task target_code : Str) : Str × List Ev :=
  call_llm hs po (build_meta_instruction abstract_task target_code) true

/-- `execute_optimized_prompt(optimized_prompt, target_code)`: the second
(execution) call; `target_code` is accepted but never used. -/
def execute_optimized_prompt (hs : Bool) (po : ProviderOutcomes)
    (optimized_prompt target_code : Str) : Str × List Ev :=
  call_llm hs po optimized_prompt false

/-- `apo_workflow(abstract_task)`: the two-stage pipeline.  Returns
`Except.error msg` where the Python raises `ConnectionError(msg)`, and
the trace of all provider requests and sleeps performed before
returning or raising. -/
def apo_workflow (env : WorkflowEnv) (abstract_task : Str) :
    Except Str WorkflowResult × List Ev :=
  let r1 := generate_optimized_prompt env.hs env.s1 abstract_task abstract_task
  if startsWith errMarker r1.1 then
    (Except.error r1.1, r1.2)
  else
    let chosen_role := chosenRole r1.1
    let cleaned_prompt := cleanedPrompt r1.1
    let r2 := execute_optimized_prompt env.hs env.s2 r1.1 abstract_task
    if startsWith errMarker r2.1 then
      (Except.error r2.1, r1.2 ++ r2.2)
    else
      let fo := extractFinal r2.1
      (Except.ok ⟨abstract_task, chosen_role, cleaned_prompt, fo.1, fo.2⟩,
        r1.2 ++ r2.2)

/-! ## Entry-point guards (cli.py lines 13-18, app.py lines 54-65)

Both entry points validate the task before `apo_workflow` is invoked:
`cli.py` strips standard input and returns early when the result is
falsy; `app.py`'s button handler shows an error instead of running the
workflow when `abstract_task.strip()` is falsy.  `some t` below is the
task the entry point passes to `apo_workflow`; `none` means the
invocation is rejected with no workflow run. -/

/-- `cli.py` `main`: `abstract_task = ''.join(lines).strip()`, then
`if not abstract_task: return`. -/
def cli_main (stdin : Str) : Option Str :=
  let abstract_task := pyStrip stdin
  if abstract_task = [] then none else some abstract_task

/-- `app.py` run-button handler: `if not abstract_task.strip():` show an
error, `else` run `apo_workflow(abstract_task.strip())`. -/
def app_run_clicked (abstract_task : Str) : Option Str :=
  if pyStrip abstract_task = [] then none else some (pyStrip abstract_task)

/-! ## Trace observations -/

/-- Whether an event is a Fast-provider (Groq) request. -/
def isGroqReq : Ev → Bool
  | .groqReq _ _ _ => true
  | _ => false

/-- Whether an event is a Local-provider (Ollama) request. -/
def isOllamaReq : Ev → Bool
  | .ollamaReq _ => true
  | _ => false

/-- Number of Fast-provider requests in a trace. -/
def groqReqCount (evs : List Ev) : Nat := (evs.filter isGroqReq).length

/-- Number of Local-provider requests in a trace. -/
def ollamaReqCount (evs : List Ev) : Nat := (evs.filter isOllamaReq).length

/-- The backoff sleeps of a trace, in order, in seconds. -/
def sleepsOf : List Ev → List Nat
  | [] => []
  | Ev.sleep n :: t => n :: sleepsOf t
  | _ :: t => sleepsOf t

/-- Outcomes on which `_ollama_generate` obtains no truthy completion
(every such call returns one of the `Error:` diagnostics). -/
def ollamaFailed (o : OllamaOutcome) : Bool :=
  match o with
  | .okJson f => (pyStrip (f.getD [])).isEmpty
  | _ => true

/-! ## Concrete transports for witnesses and counterexamples -/

/-- Fast attempt 0 fails with a network error, attempt 1 succeeds. -/
def poRetry : ProviderOutcomes :=
  ⟨fun i => if i = 0 then .reqExc [] else .okJson (some ("ok".toList)), .jsonExc⟩

/-- Every Fast attempt and the Ollama call fail. -/
def poAllFail : ProviderOutcomes :=
  ⟨fun _ => .reqExc [], .reqExc ("connection refused".toList)⟩

/-- The Ollama call succeeds with the given text (the Groq outcomes are
irrelevant when no credential is configured). -/
def poLocal (s : String) : ProviderOutcomes :=
  ⟨fun _ => .okJson none, .okJson (some s.toList)⟩

/-- Local-only workflow environment: stage 1 returns `x`, stage 2
returns the given text. -/
def envLocal (s2out : String) : WorkflowEnv :=
  ⟨false, poLocal "x", poLocal s2out⟩

/-- Local-only workflow environment in which every provider call fails. -/
def envFail : WorkflowEnv := ⟨false, poAllFail, poAllFail⟩

/-! ## Lemmas about the string primitives -/

theorem startsWith_append_self (n b : Str) : startsWith n (n ++ b) = true := by
  induction n with
  | nil => simp [startsWith]
  | cons a t ih => simp [startsWith, ih]

theorem startsWith_append_left (n a b : Str) (h : startsWith n a = true) :
    startsWith n (a ++ b) = true := by
  induction n generalizing a with
  | nil => simp [startsWith]
  | cons x xs ih =>
    cases a with
    | nil => simp [startsWith] at h
    | cons y ys =>
      simp only [startsWith, Bool.and_eq_true, decide_eq_true_eq, List.cons_append] at h ⊢
      exact ⟨h.1, ih ys h.2⟩

theorem startsWith_decomp {n h : Str} (hsw : startsWith n h = true) :
    ∃ u, h = n ++ u := by
  induction n generalizing h with
  | nil => exact ⟨h, rfl⟩
  | cons x xs ih =>
    cases h with
    | nil => simp [startsWith] at hsw
    | cons y ys =>
      simp [startsWith] at hsw
      obtain ⟨u, hu⟩ := ih hsw.2
      exact ⟨u, by simp [hsw.1, hu]⟩

theorem dropWhile_append_left {p : Char → Bool} (a b : Str) (h : a.dropWhile p ≠ []) :
    (a ++ b).dropWhile p = a.dropWhile p ++ b := by
  induction a with
  | nil => simp at h
  | cons x t ih =>
    by_cases hx : p x
    · simp only [List.cons_append, List.dropWhile_cons, hx, if_true] at h ⊢
      exact ih h
    · simp [List.cons_append, List.dropWhile_cons, hx]

theorem pyStripLeft_append (X Y : Str) (h : pyStripLeft X ≠ []) :
    pyStripLeft (X ++ Y) = pyStripLeft X ++ Y :=
  dropWhile_append_left X Y h

theorem pyStripRight_append (X Y : Str) (h : pyStripRight Y ≠ []) :
    pyStripRight (X ++ Y) = X ++ pyStripRight Y := by
  unfold pyStripRight at h ⊢
  have h' : Y.reverse.dropWhile isPySpace ≠ [] := by
    intro hc; rw [hc] at h; simp at h
  rw [List.reverse_append, dropWhile_append_left _ _ h', List.reverse_append,
    List.reverse_reverse]

theorem filter_nonspace_pyStripLeft (s : Str) :
    (pyStripLeft s).filter (fun c => !isPySpace c) = s.filter (fun c => !isPySpace c) := by
  induction s with
  | nil => rfl
  | cons a t ih =>
    by_cases ha : isPySpace a
    · simp [pyStripLeft, List.dropWhile_cons, ha, List.filter_cons] at ih ⊢
      exact ih
    · simp [pyStripLeft, List.dropWhile_cons, ha]

theorem filter_nonspace_pyStripRight (s : Str) :
    (pyStripRight s).filter (fun c => !isPySpace c) = s.filter (fun c => !isPySpace c) := by
  unfold pyStripRight
  have := filter_nonspace_pyStripLeft s.reverse
  unfold pyStripLeft at this
  calc ((s.reverse.dropWhile isPySpace).reverse).filter (fun c => !isPySpace c)
      = ((s.reverse.dropWhile isPySpace).filter (fun c => !isPySpace c)).reverse := by
        rw [List.filter_reverse]
    _ = (s.reverse.filter (fun c => !isPySpace c)).reverse := by rw [this]
    _ = s.filter (fun c => !isPySpace c) := by rw [List.filter_reverse, List.reverse_reverse]

theorem filter_nonspace_pyStrip (s : Str) :
    (pyStrip s).filter (fun c => !isPySpace c) = s.filter (fun c => !isPySpace c) := by
  unfold pyStrip
  rw [filter_nonspace_pyStripRight, filter_nonspace_pyStripLeft]

theorem pyStrip_ne_nil {s : Str} {c : Char} (hc : c ∈ s) (hw : isPySpace c = false) :
    pyStrip s ≠ [] := by
  intro h
  have h1 := filter_nonspace_pyStrip s
  rw [h] at h1
  have h2 : c ∈ s.filter (fun c => !isPySpace c) := by
    rw [List.mem_filter]
    exact ⟨hc, by simp [hw]⟩
  rw [← h1] at h2
  simp at h2

theorem pyStripRight_ne_nil {s : Str} {c : Char} (hc : c ∈ s) (hw : isPySpace c = false) :
    pyStripRight s ≠ [] := by
  intro h
  have h1 := filter_nonspace_pyStripRight s
  rw [h] at h1
  have h2 : c ∈ s.filter (fun c => !isPySpace c) := by
    rw [List.mem_filter]
    exact ⟨hc, by simp [hw]⟩
  rw [← h1] at h2
  simp at h2

theorem pyStripLeft_eq_nil_or_head (s : Str) :
    pyStripLeft s = [] ∨ ∃ c t, pyStripLeft s = c :: t ∧ isPySpace c = false := by
  induction s with
  | nil => left; rfl
  | cons a r ih =>
    by_cases h : isPySpace a
    · simpa [pyStripLeft, List.dropWhile_cons, h] using ih
    · right
      exact ⟨a, r, by simp [pyStripLeft, List.dropWhile_cons, h], by simp [h]⟩

theorem pyStripLeft_cons_not {c : Char} {t : Str} (h : isPySpace c = false) :
    pyStripLeft (c :: t) = c :: t := by
  simp [pyStripLeft, List.dropWhile_cons, h]

theorem pyStripRight_prefix (s : Str) : pyStripRight s <+: s := by
  unfold pyStripRight
  have h : s.reverse.dropWhile isPySpace <:+ s.reverse := List.dropWhile_suffix _
  have h2 := List.reverse_prefix.mpr h
  simpa using h2

theorem pyStripRight_idem (s : Str) : pyStripRight (pyStripRight s) = pyStripRight s := by
  unfold pyStripRight
  rw [List.reverse_reverse, List.dropWhile_idempotent]

theorem pyStripLeft_pyStrip (s : Str) : pyStripLeft (pyStrip s) = pyStrip s := by
  rcases pyStripLeft_eq_nil_or_head s with h | ⟨c, t, he, hc⟩
  · unfold pyStrip
    rw [h]
    rfl
  · unfold pyStrip
    rw [he]
    cases hpre : pyStripRight (c :: t) with
    | nil => rfl
    | cons a w =>
      have hp := pyStripRight_prefix (c :: t)
      rw [hpre] at hp
      obtain ⟨u, hu⟩ := hp
      have ha : a = c := by
        simp only [List.cons_append, List.cons.injEq] at hu
        exact hu.1
      rw [ha]
      exact pyStripLeft_cons_not hc

theorem pyStrip_idem (s : Str) : pyStrip (pyStrip s) = pyStrip s := by
  have h1 : pyStrip (pyStrip s) = pyStripRight (pyStripLeft (pyStrip s)) := rfl
  rw [h1, pyStripLeft_pyStrip s]
  show pyStripRight (pyStripRight (pyStripLeft s)) = pyStrip s
  rw [pyStripRight_idem]
  rfl

/-! ## Shape of the orchestrator's results -/

/-- Every `_ollama_generate` result is either failure-marked or a
`strip`-fixed success text. -/
theorem ollamaResult_marker_or_stripped (o : OllamaOutcome) :
    startsWith errMarker (ollamaResult o) = true ∨
    pyStrip (ollamaResult o) = ollamaResult o := by
  cases o with
  | okJson f =>
    by_cases h : pyStrip (f.getD []) = []
    · left
      have he : ollamaResult (.okJson f) = OLLAMA_EMPTY_MSG := by
        simp [ollamaResult, h]
      rw [he]
      decide
    · right
      have he : ollamaResult (.okJson f) = pyStrip (f.getD []) := by
        simp [ollamaResult, h]
      rw [he]
      exact pyStrip_idem _
  | reqExc e =>
    left
    exact startsWith_append_left _ _ _ (by decide)
  | jsonExc =>
    left
    decide
  | otherExc e =>
    left
    exact startsWith_append_left _ _ _ (by decide)

theorem groqAttemptResult_stripped {g : GroqOutcome} {s : Str}
    (h : groqAttemptResult g = some s) : pyStrip s = s := by
  cases g with
  | okJson c =>
    cases c with
    | none => simp [groqAttemptResult] at h
    | some c' =>
      by_cases hc : c' = []
      · simp [groqAttemptResult, hc] at h
      · simp [groqAttemptResult, hc] at h
        rw [← h]
        exact pyStrip_idem _
  | reqExc e => simp [groqAttemptResult] at h
  | structExc e => simp [groqAttemptResult] at h
  | otherExc e => simp [groqAttemptResult] at h

theorem call_llm_local (po : ProviderOutcomes) (p : Str) (m : Bool) :
    call_llm false po p m = (ollamaResult po.ollama, [Ev.ollamaReq p]) := by
  simp [call_llm, _ollama_generate]

theorem call_llm_fast_succ0 (po : ProviderOutcomes) (p : Str) (m : Bool) (s : Str)
    (h0 : groqAttemptResult (po.groq 0) = some s) :
    call_llm true po p m = (s, [Ev.groqReq 0 p (if m then 500 else 700)]) := by
  simp [call_llm, groqTry, MAX_RETRIES, h0]

theorem call_llm_fast_succ1 (po : ProviderOutcomes) (p : Str) (m : Bool) (s : Str)
    (h0 : groqAttemptResult (po.groq 0) = none)
    (h1 : groqAttemptResult (po.groq 1) = some s) :
    call_llm true po p m =
      (s, [Ev.groqReq 0 p (if m then 500 else 700), Ev.sleep 1,
           Ev.groqReq 1 p (if m then 500 else 700)]) := by
  simp [call_llm, groqTry, MAX_RETRIES, h0, h1]

theorem call_llm_fast_fail (po : ProviderOutcomes) (p : Str) (m : Bool)
    (h0 : groqAttemptResult (po.groq 0) = none)
    (h1 : groqAttemptResult (po.groq 1) = none) :
    call_llm true po p m =
      (ollamaResult po.ollama,
       [Ev.groqReq 0 p (if m then 500 else 700), Ev.sleep 1,
        Ev.groqReq 1 p (if m then 500 else 700), Ev.sleep 2, Ev.ollamaReq p]) := by
  simp [call_llm, groqTry, MAX_RETRIES, h0, h1, _ollama_generate]

/-- Every orchestrator result is either failure-marked or `strip`-fixed. -/
theorem call_llm_marker_or_stripped (hs : Bool) (po : ProviderOutcomes) (p : Str) (m : Bool) :
    startsWith errMarker (call_llm hs po p m).1 = true ∨
    pyStrip (call_llm hs po p m).1 = (call_llm hs po p m).1 := by
  cases hs with
  | false =>
    rw [call_llm_local]
    exact ollamaResult_marker_or_stripped po.ollama
  | true =>
    cases h0 : groqAttemptResult (po.groq 0) with
    | some s =>
      rw [call_llm_fast_succ0 po p m s h0]
      right
      exact groqAttemptResult_stripped h0
    | none =>
      cases h1 : groqAttemptResult (po.groq 1) with
      | some s =>
        rw [call_llm_fast_succ1 po p m s h0 h1]
        right
        exact groqAttemptResult_stripped h1
      | none =>
        rw [call_llm_fast_fail po p m h0 h1]
        exact ollamaResult_marker_or_stripped po.ollama

/-! ## Lemmas about the role pattern -/

theorem reSearchRole_eq_none {s : Str} (h : containsSub ("ROLE".toList) s = false) :
    reSearchRole s = none := by
  induction s with
  | nil => rfl
  | cons c t ih =>
    rw [containsSub] at h
    simp only [Bool.or_eq_false_iff] at h
    rw [reSearchRole]
    simp only [h.1, if_false]
    exact ih h.2

theorem reSubRole_eq_self {s : Str} (h : containsSub ("ROLE".toList) s = false) :
    reSubRole s = s := by
  induction s with
  | nil => simp [reSubRole]
  | cons c t ih =>
    rw [containsSub] at h
    simp only [Bool.or_eq_false_iff] at h
    have h1 : startsWith ['R', 'O', 'L', 'E'] (c :: t) = false := h.1
    rw [reSubRole]
    rw [ih h.2]
    simp [h1]

/-! ## Lemmas about the fence pattern -/

theorem tripleBT_eq : tripleBT = [Char.ofNat 96, Char.ofNat 96, Char.ofNat 96] := by
  decide

/-- The first three characters of `a ++ "```" ++ x` and of `a ++ "``"`
agree when `a` is non-empty, so a triple backtick starts at the head of
one exactly when it starts at the head of the other. -/
theorem startsWith_tbt_window (c : Char) (t x : Str) :
    startsWith tripleBT (c :: t ++ tripleBT ++ x) =
    startsWith tripleBT (c :: t ++ "``".toList) := by
  have hbb : ("``".toList : Str) = [Char.ofNat 96, Char.ofNat 96] := by decide
  cases t with
  | nil => simp [tripleBT_eq, hbb, startsWith]
  | cons d t' =>
    cases t' with
    | nil => simp [tripleBT_eq, hbb, startsWith]
    | cons e t'' => simp [tripleBT_eq, hbb, startsWith]

theorem splitAtTriple_append (a b : Str)
    (h : containsSub tripleBT (a ++ "``".toList) = false) :
    splitAtTriple (a ++ tripleBT ++ b) = some (a, b) := by
  induction a with
  | nil =>
    have hx : ([] : Str) ++ tripleBT ++ b =
        Char.ofNat 96 :: Char.ofNat 96 :: Char.ofNat 96 :: b := by
      rw [tripleBT_eq]
      rfl
    have hsw : startsWith tripleBT
        (Char.ofNat 96 :: Char.ofNat 96 :: Char.ofNat 96 :: b) = true := by
      have := startsWith_append_self tripleBT b
      rw [tripleBT_eq] at this
      exact this
    rw [hx]
    simp [splitAtTriple, hsw]
  | cons c t ih =>
    simp only [List.cons_append] at h
    rw [containsSub] at h
    simp only [Bool.or_eq_false_iff] at h
    have hsw : startsWith tripleBT (c :: t ++ tripleBT ++ b) = false := by
      rw [startsWith_tbt_window]
      simp only [List.cons_append]
      exact h.1
    simp only [List.cons_append, List.append_assoc] at hsw
    have ihe := ih h.2
    simp only [List.append_assoc] at ihe ⊢
    simp [splitAtTriple, hsw, ihe]

theorem splitAtNl_append (a b : Str) (h : '\n' ∉ a) :
    splitAtNl (a ++ '\n' :: b) = some (a, b) := by
  induction a with
  | nil => simp [splitAtNl]
  | cons c t ih =>
    have hc : c ≠ '\n' := by
      intro hcc
      exact h (hcc ▸ List.mem_cons_self _ _)
    have ht : '\n' ∉ t := fun hm => h (List.mem_cons_of_mem _ hm)
    rw [List.cons_append, splitAtNl]
    simp [hc, ih ht]

theorem tryFence_append (tag body post : Str) (hnl : '\n' ∉ tag)
    (hb : containsSub tripleBT (body ++ "``".toList) = false) :
    tryFence (tag ++ '\n' :: (body ++ tripleBT ++ post)) = some (tag, body) := by
  unfold tryFence
  rw [splitAtNl_append _ _ hnl]
  have h2 := splitAtTriple_append body post hb
  simp only [List.append_assoc] at h2
  simp [h2]

theorem reSearchFence_append (pre x : Str) (g : Str × Str)
    (hpre : containsSub tripleBT (pre ++ "``".toList) = false)
    (hx : tryFence x = some g) :
    reSearchFence (pre ++ tripleBT ++ x) = some g := by
  induction pre with
  | nil =>
    have he : ([] : Str) ++ tripleBT ++ x =
        Char.ofNat 96 :: Char.ofNat 96 :: Char.ofNat 96 :: x := by
      rw [tripleBT_eq]
      rfl
    have hsw : startsWith tripleBT
        (Char.ofNat 96 :: Char.ofNat 96 :: Char.ofNat 96 :: x) = true := by
      have := startsWith_append_self tripleBT x
      rw [tripleBT_eq] at this
      exact this
    have hdrop : List.drop 3
        (Char.ofNat 96 :: Char.ofNat 96 :: Char.ofNat 96 :: x) = x := by simp
    rw [he]
    simp [reSearchFence, hsw, hdrop, hx]
  | cons c t ih =>
    simp only [List.cons_append] at hpre
    rw [containsSub] at hpre
    simp only [Bool.or_eq_false_iff] at hpre
    have hsw : startsWith tripleBT (c :: t ++ tripleBT ++ x) = false := by
      rw [startsWith_tbt_window]
      simp only [List.cons_append]
      exact hpre.1
    simp only [List.cons_append, List.append_assoc] at hsw
    have ihe := ih hpre.2
    simp only [List.append_assoc] at ihe ⊢
    simp [reSearchFence, hsw, ihe]

theorem splitAtNl_shape {s a b : Str} (h : splitAtNl s = some (a, b)) :
    s = a ++ '\n' :: b ∧ '\n' ∉ a := by
  induction s generalizing a b with
  | nil => simp [splitAtNl] at h
  | cons c t ih =>
    by_cases hc : c = '\n'
    · subst hc
      simp [splitAtNl] at h
      obtain ⟨ha, hb⟩ := h
      subst ha
      subst hb
      simp
    · simp only [splitAtNl, if_neg hc] at h
      cases hsp : splitAtNl t with
      | none =>
        rw [hsp] at h
        simp at h
      | some ab =>
        obtain ⟨a', b'⟩ := ab
        rw [hsp] at h
        simp only [Option.some.injEq, Prod.mk.injEq] at h
        obtain ⟨ha, hb⟩ := h
        obtain ⟨ht, hnla⟩ := ih hsp
        subst hb
        constructor
        · rw [← ha, ht]
          simp
        · rw [← ha]
          intro hm
          rcases List.mem_cons.mp hm with h1 | h2
          · exact hc h1.symm
          · exact hnla h2

theorem splitAtTriple_shape {s a b : Str} (h : splitAtTriple s = some (a, b)) :
    s = a ++ tripleBT ++ b := by
  induction s generalizing a b with
  | nil => simp [splitAtTriple] at h
  | cons c t ih =>
    by_cases hsw : startsWith tripleBT (c :: t) = true
    · simp only [splitAtTriple, hsw, if_true] at h
      simp only [Option.some.injEq, Prod.mk.injEq] at h
      obtain ⟨ha, hb⟩ := h
      obtain ⟨u, hu⟩ := startsWith_decomp hsw
      subst ha
      rw [← hb, hu]
      simp [tripleBT_eq]
    · simp only [splitAtTriple, hsw] at h
      simp at h
      cases hsp : splitAtTriple t with
      | none =>
        simp only [hsp] at h
        simp at h
      | some ab =>
        obtain ⟨a', b'⟩ := ab
        simp only [hsp] at h
        simp only [Option.some.injEq, Prod.mk.injEq] at h
        obtain ⟨ha, hb⟩ := h
        subst hb
        rw [← ha, ih hsp]
        simp

theorem tryFence_shape {x : Str} {g : Str × Str} (h : tryFence x = some g) :
    ∃ post, x = g.1 ++ '\n' :: (g.2 ++ tripleBT ++ post) ∧ '\n' ∉ g.1 := by
  unfold tryFence at h
  cases hnl : splitAtNl x with
  | none =>
    rw [hnl] at h
    simp at h
  | some ab =>
    obtain ⟨a, b⟩ := ab
    simp only [hnl] at h
    cases hsp : splitAtTriple b with
    | none =>
      simp only [hsp] at h
      simp at h
    | some cd =>
      obtain ⟨c, d⟩ := cd
      simp only [hsp] at h
      simp only [Option.some.injEq] at h
      obtain ⟨hx1, hnla⟩ := splitAtNl_shape hnl
      have hb := splitAtTriple_shape hsp
      subst h
      refine ⟨d, ?_, hnla⟩
      rw [hx1, hb]

theorem reSearchFence_shape {s : Str} {g : Str × Str} (h : reSearchFence s = some g) :
    ∃ pre post,
      s = pre ++ tripleBT ++ (g.1 ++ '\n' :: (g.2 ++ tripleBT ++ post)) ∧ '\n' ∉ g.1 := by
  induction s with
  | nil => simp [reSearchFence] at h
  | cons c t ih =>
    by_cases hsw : startsWith tripleBT (c :: t) = true
    · simp only [reSearchFence, hsw, if_true] at h
      cases htf : tryFence (List.drop 3 (c :: t)) with
      | none =>
        simp only [htf] at h
        obtain ⟨pre, post, hs, hnl⟩ := ih h
        refine ⟨c :: pre, post, ?_, hnl⟩
        rw [hs]
        simp
      | some r =>
        simp only [htf] at h
        simp only [Option.some.injEq] at h
        subst h
        obtain ⟨post, hx, hnl⟩ := tryFence_shape htf
        obtain ⟨u, hu⟩ := startsWith_decomp hsw
        have hdu : List.drop 3 (c :: t) = u := by
          rw [hu, tripleBT_eq]
          simp
        refine ⟨[], post, ?_, hnl⟩
        rw [hu, ← hdu, hx]
        simp
    · simp only [reSearchFence, hsw] at h
      simp at h
      obtain ⟨pre, post, hs, hnl⟩ := ih h
      refine ⟨c :: pre, post, ?_, hnl⟩
      rw [hs]
      simp

/-! ## Claims -/

/-- Claim C10: `execute_optimized_prompt(p, ctx)` never uses its
`target_code` argument: for one prompt and one provider behaviour, any
two context strings produce the identical result and the identical
request trace (every issued request, with its prompt and token budget,
is recorded in the trace), so the original task passed as context has no
influence on the execution call or its output. -/
theorem execution_ignores_context (hs : Bool) (po : ProviderOutcomes)
    (optimized_prompt c1 c2 : Str) :
    execute_optimized_prompt hs po optimized_prompt c1 =
      execute_optimized_prompt hs po optimized_prompt c2 := rfl

/-- Claim C3: with the Fast provider active, the orchestrator issues at
most 2 Fast requests; its backoff sleeps are `2 ^ attempt` seconds in
order (1s after the first failed attempt, 2s after the second); and a
truthy completion on attempt 0 (resp. attempt 1) is returned immediately
with no further request, no sleep after it and no fallback. -/
theorem fast_provider_retry_policy (po : ProviderOutcomes) (p : Str) (m : Bool) :
    groqReqCount (call_llm true po p m).2 ≤ 2
  ∧ (∃ k ≤ 2, sleepsOf (call_llm true po p m).2 = (List.range k).map (fun i => 2 ^ i))
  ∧ (∀ s, groqAttemptResult (po.groq 0) = some s →
      call_llm true po p m = (s, [Ev.groqReq 0 p (if m then 500 else 700)]))
  ∧ (∀ s, groqAttemptResult (po.groq 0) = none →
      groqAttemptResult (po.groq 1) = some s →
      call_llm true po p m =
        (s, [Ev.groqReq 0 p (if m then 500 else 700), Ev.sleep 1,
             Ev.groqReq 1 p (if m then 500 else 700)])) := by
  refine ⟨?_, ?_, ?_, ?_⟩
  · cases h0 : groqAttemptResult (po.groq 0) with
    | some s =>
      rw [call_llm_fast_succ0 po p m s h0]
      simp [groqReqCount, isGroqReq]
    | none =>
      cases h1 : groqAttemptResult (po.groq 1) with
      | some s =>
        rw [call_llm_fast_succ1 po p m s h0 h1]
        simp [groqReqCount, isGroqReq]
      | none =>
        rw [call_llm_fast_fail po p m h0 h1]
        simp [groqReqCount, isGroqReq, isOllamaReq]
  · cases h0 : groqAttemptResult (po.groq 0) with
    | some s =>
      refine ⟨0, by omega, ?_⟩
      rw [call_llm_fast_succ0 po p m s h0]
      simp [sleepsOf]
    | none =>
      cases h1 : groqAttemptResult (po.groq 1) with
      | some s =>
        refine ⟨1, by omega, ?_⟩
        rw [call_llm_fast_succ1 po p m s h0 h1]
        simp [sleepsOf, List.range_succ]
      | none =>
        refine ⟨2, by omega, ?_⟩
        rw [call_llm_fast_fail po p m h0 h1]
        simp [sleepsOf, List.range_succ]
  · intro s h0
    exact call_llm_fast_succ0 po p m s h0
  · intro s h0 h1
    exact call_llm_fast_succ1 po p m s h0 h1

/-- Witness for `fast_provider_retry_policy` at a concrete transport
whose first attempt fails and whose second succeeds. -/
theorem fast_provider_retry_policy_witness :
    call_llm true poRetry ("p".toList) true =
      ("ok".toList,
       [Ev.groqReq 0 ("p".toList) 500, Ev.sleep 1, Ev.groqReq 1 ("p".toList) 500]) := by
  have h := (fast_provider_retry_policy poRetry ("p".toList) true).2.2.2
  have h0 : groqAttemptResult (poRetry.groq 0) = none := by decide
  have h1 : groqAttemptResult (poRetry.groq 1) = some ("ok".toList) := by decide
  simpa using h ("ok".toList) h0 h1

/-- Claim C4: when both Fast attempts fail, the orchestrator performs
exactly one Local request, as the last action of the call, and the Local
outcome (success text or failure diagnostic) is the final result; with
no credential configured it performs exactly one Local request and
nothing else, with the Local outcome as the result. -/
theorem fallback_single_local_attempt (po : ProviderOutcomes) (p : Str) (m : Bool) :
    (groqAttemptResult (po.groq 0) = none → groqAttemptResult (po.groq 1) = none →
        call_llm true po p m =
          (ollamaResult po.ollama,
           [Ev.groqReq 0 p (if m then 500 else 700), Ev.sleep 1,
            Ev.groqReq 1 p (if m then 500 else 700), Ev.sleep 2, Ev.ollamaReq p])
      ∧ ollamaReqCount (call_llm true po p m).2 = 1)
  ∧ (call_llm false po p m = (ollamaResult po.ollama, [Ev.ollamaReq p])
      ∧ ollamaReqCount (call_llm false po p m).2 = 1) := by
  constructor
  · intro h0 h1
    constructor
    · exact call_llm_fast_fail po p m h0 h1
    · rw [call_llm_fast_fail po p m h0 h1]
      simp [ollamaReqCount, isOllamaReq, isGroqReq]
  · constructor
    · exact call_llm_local po p m
    · rw [call_llm_local po p m]
      simp [ollamaReqCount, isOllamaReq]

/-- Witness for `fallback_single_local_attempt` at a concrete transport
where both Fast attempts fail with network errors. -/
theorem fallback_single_local_attempt_witness :
    call_llm true poAllFail ("p".toList) false =
      (ollamaResult poAllFail.ollama,
       [Ev.groqReq 0 ("p".toList) 700, Ev.sleep 1,
        Ev.groqReq 1 ("p".toList) 700, Ev.sleep 2, Ev.ollamaReq ("p".toList)]) := by
  have h := (fallback_single_local_attempt poAllFail ("p".toList) false).1
    (by decide) (by decide)
  simpa using h.1

theorem ollamaResult_error_of_failed {o : OllamaOutcome} (h : ollamaFailed o = true) :
    startsWith errMarker (ollamaResult o) = true := by
  cases o with
  | okJson f =>
    have hf : pyStrip (f.getD []) = [] := by
      simpa [ollamaFailed, List.isEmpty_iff] using h
    have he : ollamaResult (.okJson f) = OLLAMA_EMPTY_MSG := by
      simp [ollamaResult, hf]
    rw [he]
    decide
  | reqExc e => exact startsWith_append_left _ _ _ (by decide)
  | jsonExc => decide
  | otherExc e => exact startsWith_append_left _ _ _ (by decide)

theorem ne_of_index7 {A B : Str} (h : A[7]? ≠ B[7]?) : A ≠ B :=
  fun he => h (by rw [he])

theorem ollamaResult_reqExc_idx7 (e : Str) :
    (ollamaResult (.reqExc e))[7]? = some 'F' := by
  show (OLLAMA_CONN_PRE ++ _)[7]? = some 'F'
  rw [List.getElem?_append_left (by decide)]
  decide

theorem ollamaResult_otherExc_idx7 (e : Str) :
    (ollamaResult (.otherExc e))[7]? = some 'A' := by
  show (OLLAMA_OTHER_PRE ++ _)[7]? = some 'A'
  rw [List.getElem?_append_left (by decide)]
  decide

/-- Claim C2 counterexample: a missing completion field
(`data.get("response", "")` with the field absent) and an empty
completion field are distinct failure kinds of the claim's taxonomy, yet
they produce the identical diagnostic string, so not every failure kind
is distinguishable in the diagnostic text. -/
theorem empty_and_missing_completion_share_diagnostic :
    ollamaResult (.okJson none) = ollamaResult (.okJson (some [])) ∧
    ollamaResult (.okJson none) = OLLAMA_EMPTY_MSG := by
  decide

/-- Claim C2 (amended): the orchestrator never lets an exception escape
(every transport outcome is mapped to a result string); every failure
outcome — of `_ollama_generate` alone and of the full `call_llm` after
retries and fallback are exhausted — is a string prefixed with the
`Error:` marker carrying a diagnostic; and the connection, undecodable
body, empty-or-missing completion, and unexpected-exception failure
kinds carry pairwise distinct diagnostics (only an empty and a missing
completion field share one diagnostic). -/
theorem call_llm_failure_contract :
    (∀ o : OllamaOutcome, ollamaFailed o = true →
        startsWith errMarker (ollamaResult o) = true)
  ∧ (∀ (hs : Bool) (po : ProviderOutcomes) (p : Str) (m : Bool),
        (hs = true → groqAttemptResult (po.groq 0) = none ∧
                     groqAttemptResult (po.groq 1) = none) →
        ollamaFailed po.ollama = true →
        startsWith errMarker (call_llm hs po p m).1 = true)
  ∧ (∀ e1 e2 : Str,
        ollamaResult (.reqExc e1) ≠ ollamaResult .jsonExc
      ∧ ollamaResult (.reqExc e1) ≠ ollamaResult (.okJson none)
      ∧ ollamaResult (.reqExc e1) ≠ ollamaResult (.otherExc e2)
      ∧ ollamaResult .jsonExc ≠ ollamaResult (.okJson none)
      ∧ ollamaResult .jsonExc ≠ ollamaResult (.otherExc e2)
      ∧ ollamaResult (.okJson none) ≠ ollamaResult (.otherExc e2)) := by
  refine ⟨fun o ho => ollamaResult_error_of_failed ho, ?_, ?_⟩
  · intro hs po p m hg hf
    cases hs with
    | false =>
      rw [call_llm_local]
      exact ollamaResult_error_of_failed hf
    | true =>
      obtain ⟨h0, h1⟩ := hg rfl
      rw [call_llm_fast_fail po p m h0 h1]
      exact ollamaResult_error_of_failed hf
  · intro e1 e2
    refine ⟨?_, ?_, ?_, by decide, ?_, ?_⟩
    · exact ne_of_index7 (by rw [ollamaResult_reqExc_idx7]; decide)
    · exact ne_of_index7 (by rw [ollamaResult_reqExc_idx7]; decide)
    · exact ne_of_index7
        (by rw [ollamaResult_reqExc_idx7, ollamaResult_otherExc_idx7]; decide)
    · exact ne_of_index7 (by rw [ollamaResult_otherExc_idx7]; decide)
    · exact ne_of_index7 (by rw [ollamaResult_otherExc_idx7]; decide)

/-- Witness for `call_llm_failure_contract`: a whitespace-only
completion is a failure with the empty-response diagnostic, and a
local-mode call whose Ollama request fails returns an `Error:`-marked
string. -/
theorem call_llm_failure_contract_witness :
    startsWith errMarker (ollamaResult (.okJson (some ("  ".toList)))) = true
  ∧ startsWith errMarker (call_llm false poAllFail ("p".toList) true).1 = true := by
  constructor
  · exact call_llm_failure_contract.1 (.okJson (some ("  ".toList))) (by decide)
  · exact call_llm_failure_contract.2.1 false poAllFail ("p".toList) true
      (fun h => absurd h (by decide)) (by decide)

/-- Claim C5: `apo_workflow` raises (modelled as `Except.error`) exactly
when a stage result carries the reserved `Error:` prefix: a marked
first-stage result raises with a trace equal to the first call's trace
alone (the second provider call is never made); an unmarked first stage
followed by a marked second-stage result raises before any result
record is produced; and with both results unmarked the workflow returns
a record and no error is raised at this layer. -/
theorem workflow_error_iff_marker (env : WorkflowEnv) (task : Str) :
    (startsWith errMarker
        (generate_optimized_prompt env.hs env.s1 task task).1 = true →
      apo_workflow env task =
        (Except.error (generate_optimized_prompt env.hs env.s1 task task).1,
         (generate_optimized_prompt env.hs env.s1 task task).2))
  ∧ (startsWith errMarker
        (generate_optimized_prompt env.hs env.s1 task task).1 = false →
     startsWith errMarker
        (execute_optimized_prompt env.hs env.s2
          (generate_optimized_prompt env.hs env.s1 task task).1 task).1 = true →
      apo_workflow env task =
        (Except.error (execute_optimized_prompt env.hs env.s2
            (generate_optimized_prompt env.hs env.s1 task task).1 task).1,
         (generate_optimized_prompt env.hs env.s1 task task).2 ++
           (execute_optimized_prompt env.hs env.s2
             (generate_optimized_prompt env.hs env.s1 task task).1 task).2))
  ∧ (startsWith errMarker
        (generate_optimized_prompt env.hs env.s1 task task).1 = false →
     startsWith errMarker
        (execute_optimized_prompt env.hs env.s2
          (generate_optimized_prompt env.hs env.s1 task task).1 task).1 = false →
      ∃ rec : WorkflowResult, (apo_workflow env task).1 = Except.ok rec) := by
  refine ⟨?_, ?_, ?_⟩
  · intro h1
    unfold apo_workflow
    simp only [h1]
    simp
  · intro h1 h2
    unfold apo_workflow
    simp only [h1, h2]
    simp
  · intro h1 h2
    unfold apo_workflow
    simp only [h1, h2]
    simp

/-- Witness for `workflow_error_iff_marker`: with a failing local
transport the workflow raises on the first stage and its trace is the
single first-stage request; with both stages succeeding it returns a
record. -/
theorem workflow_error_iff_marker_witness :
    apo_workflow envFail ("t".toList) =
      (Except.error (generate_optimized_prompt false poAllFail ("t".toList) ("t".toList)).1,
       (generate_optimized_prompt false poAllFail ("t".toList) ("t".toList)).2)
  ∧ ∃ rec : WorkflowResult,
      (apo_workflow (envLocal "hello") ("t".toList)).1 = Except.ok rec := by
  constructor
  · exact (workflow_error_iff_marker envFail ("t".toList)).1 (by decide)
  · exact (workflow_error_iff_marker (envLocal "hello") ("t".toList)).2.2
      (by decide) (by decide)

/-- Claim C1 counterexample: `apo_workflow` itself performs no empty-task
validation.  On the empty task (with a local-only transport) it issues
exactly one provider request — the claim that the coordinator rejects the
invocation before invoking any provider is false. -/
theorem empty_task_reaches_provider :
    ollamaReqCount (apo_workflow envFail ([] : Str)).2 = 1 := by
  decide

/-- Claim C1 (amended): the empty/whitespace-only-task rejection lives in
the entry points, not in `apo_workflow`: for every task that is empty or
whitespace-only, both the CLI `main` and the app's run-button handler
reject the invocation (`none`) without running the workflow, so no
provider call is attempted. -/
theorem entry_points_reject_blank_task (s : Str)
    (h : ∀ c ∈ s, isPySpace c = true) :
    cli_main s = none ∧ app_run_clicked s = none := by
  have hl : pyStripLeft s = [] := by
    unfold pyStripLeft
    exact List.dropWhile_eq_nil_iff.mpr h
  have hs : pyStrip s = [] := by
    rw [pyStrip, hl]
    rfl
  constructor
  · simp [cli_main, hs]
  · simp [app_run_clicked, hs]

/-- Witness for `entry_points_reject_blank_task` on a whitespace-only
task. -/
theorem entry_points_reject_blank_task_witness :
    cli_main ("  \n ".toList) = none ∧ app_run_clicked ("  \n ".toList) = none :=
  entry_points_reject_blank_task ("  \n ".toList) (by decide)

/-- Claim C6: role extraction.  (i) When the first-stage text begins with
the leading marker `ROLE: ` followed by a label of allowed characters
(letters/digits/spaces/commas/hyphens; the label is given in stripped
form, and `ROLE` does not recur in the remainder), `role_selected`
equals that label and the role line is stripped from the prompt shown to
the user (what remains is the rest of the text, stripped).  (ii) On any
orchestrator result that is not failure-marked and contains no `ROLE`
marker, `role_selected = "N/A"` and the prompt passes through
unchanged. -/
theorem role_extraction :
    (∀ label rest : Str,
        (∀ c ∈ label, roleClassChar c = true) →
        pyStrip label = label →
        containsSub ("ROLE".toList) rest = false →
        chosenRole ("ROLE: ".toList ++ label ++ '\n' :: rest) = label
      ∧ cleanedPrompt ("ROLE: ".toList ++ label ++ '\n' :: rest) = pyStrip rest)
  ∧ (∀ (hs : Bool) (po : ProviderOutcomes) (pr : Str) (m : Bool),
        startsWith errMarker (call_llm hs po pr m).1 = false →
        containsSub ("ROLE".toList) (call_llm hs po pr m).1 = false →
        chosenRole (call_llm hs po pr m).1 = "N/A".toList
      ∧ cleanedPrompt (call_llm hs po pr m).1 = (call_llm hs po pr m).1) := by
  constructor
  · intro label rest hlab hstrip hrest
    have hpe : ("ROLE: ".toList : Str) ++ label ++ '\n' :: rest =
        'R' :: 'O' :: 'L' :: 'E' :: ':' :: ' ' :: (label ++ '\n' :: rest) := rfl
    have hsw : startsWith ("ROLE".toList)
        ('R' :: 'O' :: 'L' :: 'E' :: ':' :: ' ' :: (label ++ '\n' :: rest)) = true := by
      simp [startsWith, show ("ROLE".toList : Str) = ['R', 'O', 'L', 'E'] from rfl]
    have ho1 : optDrop ':' (':' :: ' ' :: (label ++ '\n' :: rest)) =
        ' ' :: (label ++ '\n' :: rest) := by simp [optDrop]
    have ho2 : optDrop ' ' (' ' :: (label ++ '\n' :: rest)) =
        label ++ '\n' :: rest := by simp [optDrop]
    have hgroup : roleGroup (':' :: ' ' :: (label ++ '\n' :: rest)) = label := by
      unfold roleGroup
      rw [ho1, ho2]
      rw [List.takeWhile_append_of_pos hlab]
      rw [List.takeWhile_cons_of_neg (by decide)]
      simp
    have hrm : roleMatchRest (':' :: ' ' :: (label ++ '\n' :: rest)) = rest := by
      unfold roleMatchRest
      rw [ho1, ho2]
      rw [List.dropWhile_append_of_pos hlab]
      rw [List.dropWhile_cons_of_neg (by decide)]
      simp [optDrop]
    have hsr : reSearchRole
        ('R' :: 'O' :: 'L' :: 'E' :: ':' :: ' ' :: (label ++ '\n' :: rest)) = some label := by
      rw [reSearchRole]
      simp only [hsw, if_true]
      have hdrop : List.drop 4
          ('R' :: 'O' :: 'L' :: 'E' :: ':' :: ' ' :: (label ++ '\n' :: rest)) =
          ':' :: ' ' :: (label ++ '\n' :: rest) := rfl
      rw [hdrop, hgroup]
    have hsub : reSubRole
        ('R' :: 'O' :: 'L' :: 'E' :: ':' :: ' ' :: (label ++ '\n' :: rest)) = rest := by
      rw [reSubRole]
      simp only [hsw, if_true]
      have hdrop : List.drop 4
          ('R' :: 'O' :: 'L' :: 'E' :: ':' :: ' ' :: (label ++ '\n' :: rest)) =
          ':' :: ' ' :: (label ++ '\n' :: rest) := rfl
      rw [hdrop, hrm]
      exact reSubRole_eq_self hrest
    constructor
    · rw [hpe]
      unfold chosenRole
      rw [hsr]
      exact hstrip
    · rw [hpe]
      unfold cleanedPrompt
      rw [hsub]
  · intro hs po pr m hne hnc
    have hstrip : pyStrip (call_llm hs po pr m).1 = (call_llm hs po pr m).1 := by
      rcases call_llm_marker_or_stripped hs po pr m with h | h
      · rw [h] at hne
        simp at hne
      · exact h
    constructor
    · unfold chosenRole
      rw [reSearchRole_eq_none hnc]
    · unfold cleanedPrompt
      rw [reSubRole_eq_self hnc]
      exact hstrip

/-- Witness for `role_extraction` at the spec's own example label and at
a concrete marker-free orchestrator result. -/
theorem role_extraction_witness :
    chosenRole ("ROLE: ".toList ++ "Senior Data Scientist".toList ++
        '\n' :: "Do X.".toList) = "Senior Data Scientist".toList
  ∧ cleanedPrompt ("ROLE: ".toList ++ "Senior Data Scientist".toList ++
        '\n' :: "Do X.".toList) = pyStrip ("Do X.".toList)
  ∧ chosenRole (call_llm false (poLocal "hello") ("p".toList) true).1 = "N/A".toList := by
  have h1 := role_extraction.1 ("Senior Data Scientist".toList) ("Do X.".toList)
    (by decide) (by decide) (by decide)
  have h2 := role_extraction.2 false (poLocal "hello") ("p".toList) true
    (by decide) (by decide)
  exact ⟨h1.1, h1.2, h2.1⟩

/-- Claim C7: fence extraction.  (i) When the second-stage output
contains a fenced block — an opening triple backtick (with no earlier
triple backtick, even across the boundary), an arbitrary language tag
without newline (absent, lower- or mixed-case, anything), a newline, a
body (containing no closing fence, even across the boundary) and a
closing triple backtick — then `final_output` is the body trimmed of
leading/trailing whitespace and `output_type = "code"`.  (ii) When the
output admits no such fenced-block decomposition at all, `final_output`
is the entire output trimmed and `output_type = "text"`. -/
theorem fence_extraction :
    (∀ pre tag body post : Str,
        containsSub tripleBT (pre ++ "``".toList) = false →
        '\n' ∉ tag →
        containsSub tripleBT (body ++ "``".toList) = false →
        extractFinal (pre ++ tripleBT ++ (tag ++ '\n' :: (body ++ tripleBT ++ post)))
          = (pyStrip body, "code".toList))
  ∧ (∀ s : Str,
        (∀ pre tag body post : Str, '\n' ∉ tag →
          s ≠ pre ++ tripleBT ++ (tag ++ '\n' :: (body ++ tripleBT ++ post))) →
        extractFinal s = (pyStrip s, "text".toList)) := by
  constructor
  · intro pre tag body post hpre htag hbody
    have htf : tryFence (tag ++ '\n' :: (body ++ tripleBT ++ post)) = some (tag, body) :=
      tryFence_append tag body post htag hbody
    have hsf := reSearchFence_append pre
      (tag ++ '\n' :: (body ++ tripleBT ++ post)) (tag, body) hpre htf
    unfold extractFinal
    rw [hsf]
  · intro s hno
    cases hsf : reSearchFence s with
    | none =>
      unfold extractFinal
      rw [hsf]
    | some g =>
      obtain ⟨pre, post, hs, hnl⟩ := reSearchFence_shape hsf
      exact absurd hs (hno pre g.1 g.2 post hnl)

/-- Witness for `fence_extraction`: a concrete python-tagged block, and
a concrete output with no backtick at all (which therefore admits no
fenced-block decomposition). -/
theorem fence_extraction_witness :
    extractFinal ("Intro:\n".toList ++ tripleBT ++
        ("python".toList ++ '\n' :: ("x = 1".toList ++ tripleBT ++ "\nbye".toList)))
      = (pyStrip ("x = 1".toList), "code".toList)
  ∧ extractFinal ("plain answer".toList)
      = (pyStrip ("plain answer".toList), "text".toList) := by
  constructor
  · exact fence_extraction.1 ("Intro:\n".toList) ("python".toList) ("x = 1".toList)
      ("\nbye".toList) (by decide) (by decide) (by decide)
  · refine fence_extraction.2 ("plain answer".toList) ?_
    intro pre tag body post hnl heq
    have hm : Char.ofNat 96 ∈ ("plain answer".toList : Str) := by
      rw [heq, tripleBT_eq]
      simp
    revert hm
    decide

theorem apo_workflow_err1 (env : WorkflowEnv) (task : Str)
    (h1 : startsWith errMarker
      (generate_optimized_prompt env.hs env.s1 task task).1 = true) :
    apo_workflow env task =
      (Except.error (generate_optimized_prompt env.hs env.s1 task task).1,
       (generate_optimized_prompt env.hs env.s1 task task).2) := by
  unfold apo_workflow
  simp only [h1]
  simp

theorem apo_workflow_err2 (env : WorkflowEnv) (task : Str)
    (h1 : startsWith errMarker
      (generate_optimized_prompt env.hs env.s1 task task).1 = false)
    (h2 : startsWith errMarker
      (execute_optimized_prompt env.hs env.s2
        (generate_optimized_prompt env.hs env.s1 task task).1 task).1 = true) :
    (apo_workflow env task).1 =
      Except.error (execute_optimized_prompt env.hs env.s2
        (generate_optimized_prompt env.hs env.s1 task task).1 task).1 := by
  unfold apo_workflow
  simp only [h1, h2]
  simp

theorem apo_workflow_success (env : WorkflowEnv) (task : Str)
    (h1 : startsWith errMarker
      (generate_optimized_prompt env.hs env.s1 task task).1 = false)
    (h2 : startsWith errMarker
      (execute_optimized_prompt env.hs env.s2
        (generate_optimized_prompt env.hs env.s1 task task).1 task).1 = false) :
    (apo_workflow env task).1 =
      Except.ok
        ⟨task,
         chosenRole (generate_optimized_prompt env.hs env.s1 task task).1,
         cleanedPrompt (generate_optimized_prompt env.hs env.s1 task task).1,
         (extractFinal (execute_optimized_prompt env.hs env.s2
            (generate_optimized_prompt env.hs env.s1 task task).1 task).1).1,
         (extractFinal (execute_optimized_prompt env.hs env.s2
            (generate_optimized_prompt env.hs env.s1 task task).1 task).1).2⟩ := by
  unfold apo_workflow
  simp only [h1, h2]
  simp

/-- Claim C8 counterexample: a successful two-stage run (neither stage
failure-marked) in which the second stage returns an empty fenced block
produces `final_output = ""` — empty — so `final_output` is not always
non-empty on successful runs (its `output_type` is `code`, as one of
the two permitted values). -/
theorem workflow_success_with_empty_final_output :
    (apo_workflow (envLocal "```\n```") ("t".toList)).1 =
      Except.ok ⟨"t".toList, "N/A".toList, "x".toList, [], "code".toList⟩ := by
  rw [apo_workflow_success (envLocal "```\n```") ("t".toList) (by decide) (by decide)]
  have hr2 : (execute_optimized_prompt (envLocal "```\n```").hs
      (envLocal "```\n```").s2
      (generate_optimized_prompt (envLocal "```\n```").hs
        (envLocal "```\n```").s1 ("t".toList) ("t".toList)).1 ("t".toList)).1
      = "```\n```".toList := by decide
  have hr1 : (generate_optimized_prompt (envLocal "```\n```").hs
      (envLocal "```\n```").s1 ("t".toList) ("t".toList)).1 = "x".toList := by decide
  rw [hr2, hr1]
  have hcp : cleanedPrompt ("x".toList) = "x".toList := by
    unfold cleanedPrompt
    rw [reSubRole_eq_self (by decide)]
    decide
  rw [hcp]
  have hcr : chosenRole ("x".toList) = "N/A".toList := by decide
  have hef1 : (extractFinal ("```\n```".toList)).1 = [] := by decide
  have hef2 : (extractFinal ("```\n```".toList)).2 = "code".toList := by decide
  rw [hcr, hef1, hef2]

/-- Claim C8 (amended): for every successful two-stage run the record's
`output_type` is exactly one of `code`/`text`, and `final_output` equals
the trim of the selected region of the second-stage result — the fenced
body when the fence pattern matched, else the whole output
(`selectedRegion`); it is non-empty whenever that selected region
contains a non-whitespace character — only an all-whitespace region
(e.g. an empty fenced block) can make it empty. -/
theorem workflow_success_shape (env : WorkflowEnv) (task : Str) :
    ∀ rec : WorkflowResult, (apo_workflow env task).1 = Except.ok rec →
      (rec.output_type = "code".toList ∨ rec.output_type = "text".toList)
    ∧ rec.final_output =
        pyStrip (selectedRegion (execute_optimized_prompt env.hs env.s2
          (generate_optimized_prompt env.hs env.s1 task task).1 task).1)
    ∧ ((∃ c ∈ selectedRegion (execute_optimized_prompt env.hs env.s2
          (generate_optimized_prompt env.hs env.s1 task task).1 task).1,
          isPySpace c = false) → rec.final_output ≠ []) := by
  intro rec h
  by_cases h1 : startsWith errMarker
      (generate_optimized_prompt env.hs env.s1 task task).1 = true
  · rw [apo_workflow_err1 env task h1] at h
    simp at h
  · have h1f : startsWith errMarker
        (generate_optimized_prompt env.hs env.s1 task task).1 = false := by
      simpa using h1
    by_cases h2 : startsWith errMarker
        (execute_optimized_prompt env.hs env.s2
          (generate_optimized_prompt env.hs env.s1 task task).1 task).1 = true
    · rw [apo_workflow_err2 env task h1f h2] at h
      simp at h
    · have h2f : startsWith errMarker
          (execute_optimized_prompt env.hs env.s2
            (generate_optimized_prompt env.hs env.s1 task task).1 task).1 = false := by
        simpa using h2
      rw [apo_workflow_success env task h1f h2f] at h
      have hrec := (Except.ok.injEq _ _).mp h.symm
      subst hrec
      cases hsf : reSearchFence (execute_optimized_prompt env.hs env.s2
          (generate_optimized_prompt env.hs env.s1 task task).1 task).1 with
      | some g =>
        have hsel : selectedRegion (execute_optimized_prompt env.hs env.s2
            (generate_optimized_prompt env.hs env.s1 task task).1 task).1 = g.2 := by
          unfold selectedRegion
          rw [hsf]
        refine ⟨Or.inl ?_, ?_, ?_⟩
        · show (extractFinal _).2 = _
          unfold extractFinal
          rw [hsf]
        · show (extractFinal _).1 = _
          unfold extractFinal
          rw [hsf, hsel]
        · rw [hsel]
          rintro ⟨c, hc, hw⟩
          show (extractFinal _).1 ≠ []
          unfold extractFinal
          rw [hsf]
          exact pyStrip_ne_nil hc hw
      | none =>
        have hsel : selectedRegion (execute_optimized_prompt env.hs env.s2
            (generate_optimized_prompt env.hs env.s1 task task).1 task).1 =
            (execute_optimized_prompt env.hs env.s2
              (generate_optimized_prompt env.hs env.s1 task task).1 task).1 := by
          unfold selectedRegion
          rw [hsf]
        refine ⟨Or.inr ?_, ?_, ?_⟩
        · show (extractFinal _).2 = _
          unfold extractFinal
          rw [hsf]
        · show (extractFinal _).1 = _
          unfold extractFinal
          rw [hsf, hsel]
        · rw [hsel]
          rintro ⟨c, hc, hw⟩
          show (extractFinal _).1 ≠ []
          unfold extractFinal
          rw [hsf]
          exact pyStrip_ne_nil hc hw

/-- Witness for `workflow_success_shape` at a concrete successful run
whose second stage returns plain text: the record's `output_type` is one
of the two permitted values, its `final_output` is the trimmed selected
region, and — since the region `"hello"` has a non-whitespace
character — that `final_output` is non-empty. -/
theorem workflow_success_shape_witness :
    ((⟨"t".toList, "N/A".toList, "x".toList, "hello".toList,
        "text".toList⟩ : WorkflowResult).output_type = "code".toList ∨
     (⟨"t".toList, "N/A".toList, "x".toList, "hello".toList,
        "text".toList⟩ : WorkflowResult).output_type = "text".toList)
  ∧ (⟨"t".toList, "N/A".toList, "x".toList, "hello".toList,
        "text".toList⟩ : WorkflowResult).final_output ≠ [] := by
  have hok : (apo_workflow (envLocal "hello") ("t".toList)).1 =
      Except.ok ⟨"t".toList, "N/A".toList, "x".toList, "hello".toList,
        "text".toList⟩ := by
    rw [apo_workflow_success (envLocal "hello") ("t".toList) (by decide) (by decide)]
    have hr2 : (execute_optimized_prompt (envLocal "hello").hs
        (envLocal "hello").s2
        (generate_optimized_prompt (envLocal "hello").hs
          (envLocal "hello").s1 ("t".toList) ("t".toList)).1 ("t".toList)).1
        = "hello".toList := by decide
    have hr1 : (generate_optimized_prompt (envLocal "hello").hs
        (envLocal "hello").s1 ("t".toList) ("t".toList)).1 = "x".toList := by decide
    rw [hr2, hr1]
    have hcp : cleanedPrompt ("x".toList) = "x".toList := by
      unfold cleanedPrompt
      rw [reSubRole_eq_self (by decide)]
      decide
    rw [hcp]
    have hcr : chosenRole ("x".toList) = "N/A".toList := by decide
    have hef1 : (extractFinal ("hello".toList)).1 = "hello".toList := by decide
    have hef2 : (extractFinal ("hello".toList)).2 = "text".toList := by decide
    rw [hcr, hef1, hef2]
  have h := workflow_success_shape (envLocal "hello") ("t".toList)
    ⟨"t".toList, "N/A".toList, "x".toList, "hello".toList, "text".toList⟩ hok
  exact ⟨h.1, h.2.2 (by decide)⟩

theorem pyStripRight_append_space (Z : Str) {w : Char} (hw : isPySpace w = true) :
    pyStripRight (Z ++ [w]) = pyStripRight Z := by
  unfold pyStripRight
  rw [List.reverse_append]
  simp [List.dropWhile_cons, hw]

theorem containsSub_append_middle (a n b : Str) :
    containsSub n (a ++ (n ++ b)) = true := by
  induction a with
  | nil =>
    rw [List.nil_append]
    cases n with
    | nil =>
      cases b with
      | nil => rfl
      | cons x xs => simp [containsSub, startsWith]
    | cons x xs =>
      rw [List.cons_append, containsSub]
      have h := startsWith_append_self (x :: xs) b
      rw [List.cons_append] at h
      simp [h]
  | cons d a' ih =>
    rw [List.cons_append, containsSub]
    simp [ih]

/-- Claim C9 counterexample: the context text is not embedded without
alteration: with context `"zqz "` (a trailing space) the rendered
instruction nowhere contains the context verbatim — the template's final
`.strip()` removed the context's trailing whitespace. -/
theorem context_not_embedded_verbatim :
    containsSub ("zqz ".toList)
      (build_meta_instruction ([] : Str) ("zqz ".toList)) = false := by
  decide

/-- Claim C9 (amended): `build_meta_instruction` is a pure deterministic
function whose output has the fixed-slot shape: the left-stripped
template prefix, then the task text verbatim, then the fixed middle
(`"\nCONTEXT: "`), then the context right-stripped — the final
`.strip()` of the rendered template removes trailing whitespace of the
context (and the template's own outer newlines) but nothing else of
either input; in particular the task occurs verbatim in the output. -/
theorem build_meta_instruction_shape (t c : Str) :
    build_meta_instruction t c =
      pyStripLeft metaPre ++ (t ++ pyStripRight (metaMid ++ c))
  ∧ containsSub t (build_meta_instruction t c) = true := by
  have hpre : pyStripLeft metaPre ≠ [] := by decide
  have hmemC : ('C' : Char) ∈ metaMid ++ (c ++ ['\n']) := by
    apply List.mem_append_left
    decide
  have hright : pyStripRight (metaMid ++ (c ++ ['\n'])) ≠ [] :=
    pyStripRight_ne_nil hmemC (by decide)
  have hshape : build_meta_instruction t c =
      pyStripLeft metaPre ++ (t ++ pyStripRight (metaMid ++ c)) := by
    unfold build_meta_instruction
    unfold pyStrip
    simp only [List.append_assoc]
    rw [pyStripLeft_append _ _ hpre]
    rw [show pyStripLeft metaPre ++ (t ++ (metaMid ++ (c ++ ['\n']))) =
          (pyStripLeft metaPre ++ t) ++ (metaMid ++ (c ++ ['\n'])) from by
        rw [List.append_assoc]]
    rw [pyStripRight_append _ _ hright]
    rw [show metaMid ++ (c ++ ['\n']) = (metaMid ++ c) ++ ['\n'] from by
        rw [List.append_assoc]]
    rw [pyStripRight_append_space _ (by decide)]
    rw [List.append_assoc]
  refine ⟨hshape, ?_⟩
  rw [hshape]
  exact containsSub_append_middle _ _ _
